import Mathlib

/-!
Shallow embedding of the ICIJ offshore-leaks graph retriever
(`load_real_icij_data.py` and `graph_retriever.py`).

Python dictionaries with string keys are modelled as insertion-ordered
association lists; `d[k] = v` keeps the position of an existing key and
appends a fresh key at the end, exactly like a CPython dict.  Python's
string truthiness (`s or default`) is modelled by `orElse`.  The NetworkX
`MultiDiGraph` is modelled as a node association list plus an
insertion-ordered edge list (parallel edges allowed).
-/

namespace ICIJ

/-- Python `d[k] = v` on an insertion-ordered dict: update the first
occurrence of the key in place, otherwise append at the end. -/
def dictAssign : List (String × α) → String → α → List (String × α)
  | [], k, v => [(k, v)]
  | p :: ps, k, v => if p.1 = k then (k, v) :: ps else p :: dictAssign ps k v

/-- Python `d.get(k)`: value of the first occurrence of the key, if any. -/
def dictFind? (d : List (String × α)) (k : String) : Option α :=
  (d.find? (fun p => p.1 = k)).map (fun p => p.2)

/-- Python `d.get(k, dflt)`. -/
def dictGetD (d : List (String × α)) (k : String) (dflt : α) : α :=
  (dictFind? d k).getD dflt

/-- Python `k in d`. -/
def dictHasKey (d : List (String × α)) (k : String) : Bool :=
  d.any (fun p => p.1 = k)

/-- Python `a or b` on strings: the empty string is falsy. -/
def orElse (s dflt : String) : String :=
  if s = "" then dflt else s

/-- Deduplicate a list of keys keeping the first occurrence of each,
in encounter order (the iteration order of a NetworkX adjacency dict). -/
def dedupKeepFirst (seen : List String) : List String → List String
  | [] => []
  | a :: l => if a ∈ seen then dedupKeepFirst seen l else a :: dedupKeepFirst (a :: seen) l

/-- Digits of a decimal string, reversed, regrouped with a comma every
three digits (helper for `commaFormat`). -/
def commaGroupRev : List Char → Nat → List Char
  | [], _ => []
  | c :: cs, i =>
    (if i ≠ 0 ∧ i % 3 = 0 then [c, ','] else [c]) ++ commaGroupRev cs (i + 1)

/-- Python `f"\x7bn:,\x7d"`: decimal rendering with thousands separators. -/
def commaFormat (n : Nat) : String :=
  String.mk (commaGroupRev (toString n).toList.reverse 0).reverse

/-! ## Loader records (`load_real_icij_data.py`)

One structure per CSV row shape (the columns the loader reads), and one
structure per loaded record (the dict the loader builds from a row). -/

/-- A row of `nodes-entities.csv`, restricted to the columns read by
`load_entities`. -/
structure EntityRow where
  node_id : String
  name : String
  original_name : String
  former_name : String
  jurisdiction : String
  jurisdiction_description : String
  company_type : String
  address : String
  internal_id : String
  incorporation_date : String
  inactivation_date : String
  struck_off_date : String
  status : String
  service_provider : String
  country_codes : String
  countries : String
  sourceID : String
  valid_until : String
  note : String
deriving DecidableEq, Repr

/-- The entity record built by `load_entities` from a row. -/
structure Entity where
  entity_id : String
  name : String
  original_name : String
  former_name : String
  jurisdiction : String
  jurisdiction_description : String
  company_type : String
  address : String
  internal_id : String
  incorporation_date : String
  inactivation_date : String
  struck_off_date : String
  status : String
  service_provider : String
  country_codes : String
  countries : String
  source : String
  valid_until : String
  note : String
deriving DecidableEq, Repr

/-- Field-by-field translation of the entity dict literal in
`load_entities` (defaults applied with Python `or`). -/
def mkEntity (row : EntityRow) : Entity :=
  { entity_id := row.node_id
    name := orElse row.name "Unknown Entity"
    original_name := orElse row.original_name (orElse row.name "Unknown Entity")
    former_name := orElse row.former_name ""
    jurisdiction := orElse row.jurisdiction "Unknown"
    jurisdiction_description := orElse row.jurisdiction_description ""
    company_type := orElse row.company_type "Unknown"
    address := orElse row.address ""
    internal_id := orElse row.internal_id ""
    incorporation_date := orElse row.incorporation_date ""
    inactivation_date := orElse row.inactivation_date ""
    struck_off_date := orElse row.struck_off_date ""
    status := orElse row.status "Unknown"
    service_provider := orElse row.service_provider "Unknown"
    country_codes := orElse row.country_codes ""
    countries := orElse row.countries ""
    source := orElse row.sourceID "Unknown"
    valid_until := orElse row.valid_until ""
    note := orElse row.note "" }

/-- A row of `nodes-officers.csv`, restricted to the columns read by
`load_officers`. -/
structure OfficerRow where
  node_id : String
  name : String
  countries : String
  country_codes : String
  sourceID : String
  valid_until : String
  note : String
deriving DecidableEq, Repr

/-- The officer record built by `load_officers` from a row. -/
structure Officer where
  officer_id : String
  name : String
  countries : String
  country_codes : String
  source : String
  valid_until : String
  note : String
deriving DecidableEq, Repr

/-- Field-by-field translation of the officer dict literal in
`load_officers`. -/
def mkOfficer (row : OfficerRow) : Officer :=
  { officer_id := row.node_id
    name := orElse row.name "Unknown Person"
    countries := orElse row.countries "Unknown"
    country_codes := orElse row.country_codes ""
    source := orElse row.sourceID "Unknown"
    valid_until := orElse row.valid_until ""
    note := orElse row.note "" }

/-- A row of `nodes-addresses.csv`, restricted to the columns read by
`load_addresses`. -/
structure AddressRow where
  node_id : String
  address : String
  name : String
  countries : String
  country_codes : String
  sourceID : String
  valid_until : String
  note : String
deriving DecidableEq, Repr

/-- The address record built by `load_addresses` from a row. -/
structure Address where
  address_id : String
  address : String
  name : String
  countries : String
  country_codes : String
  source : String
  valid_until : String
  note : String
deriving DecidableEq, Repr

/-- Field-by-field translation of the address dict literal in
`load_addresses`. -/
def mkAddress (row : AddressRow) : Address :=
  { address_id := row.node_id
    address := orElse row.address "Unknown Address"
    name := orElse row.name ""
    countries := orElse row.countries "Unknown"
    country_codes := orElse row.country_codes ""
    source := orElse row.sourceID "Unknown"
    valid_until := orElse row.valid_until ""
    note := orElse row.note "" }

/-- A row of `relationships.csv`, restricted to the columns read by
`load_relationships`. -/
structure RelRow where
  node_id_start : String
  node_id_end : String
  rel_type : String
  link : String
  status : String
  start_date : String
  end_date : String
  sourceID : String
deriving DecidableEq, Repr

/-- The relationship record built by `load_relationships` from a row. -/
structure Relationship where
  start_node : String
  end_node : String
  rel_type : String
  link : String
  status : String
  start_date : String
  end_date : String
  source : String
deriving DecidableEq, Repr

/-- Field-by-field translation of the relationship dict literal in
`load_relationships`. -/
def mkRelationship (row : RelRow) : Relationship :=
  { start_node := row.node_id_start
    end_node := row.node_id_end
    rel_type := orElse row.rel_type "connected_to"
    link := orElse row.link ""
    status := orElse row.status ""
    start_date := orElse row.start_date ""
    end_date := orElse row.end_date ""
    source := orElse row.sourceID "Unknown" }

/-! ## Loader loops

Each `load_*` function iterates over the CSV rows with a running `count`
and Python's `if limit and count >= limit: break` guard: a limit of
`None` (here `none`) or `0` (falsy) disables truncation. -/

/-- Python truthiness of the `limit` argument. -/
def limitTruthy : Option Nat → Bool
  | none => false
  | some n => n ≠ 0

/-- The shared row loop of the four `load_*` functions: accumulate
`step acc row` over the rows, stopping as soon as a truthy `limit` is
reached by `count`. -/
def loadLoop (step : β → α → β) (limit : Option Nat) : Nat → β → List α → β
  | _, acc, [] => acc
  | count, acc, r :: rs =>
    if limitTruthy limit ∧ limit.getD 0 ≤ count then acc
    else loadLoop step limit (count + 1) (step acc r) rs

/-- The dict update `entities[entity_id] = entity` performed per row. -/
def entityStep (acc : List (String × Entity)) (row : EntityRow) : List (String × Entity) :=
  dictAssign acc row.node_id (mkEntity row)

/-- The dict update `officers[officer_id] = officer` performed per row. -/
def officerStep (acc : List (String × Officer)) (row : OfficerRow) : List (String × Officer) :=
  dictAssign acc row.node_id (mkOfficer row)

/-- The dict update `addresses[address_id] = address` performed per row. -/
def addressStep (acc : List (String × Address)) (row : AddressRow) : List (String × Address) :=
  dictAssign acc row.node_id (mkAddress row)

/-- The list append `relationships.append(relationship)` performed per row. -/
def relationshipStep (acc : List Relationship) (row : RelRow) : List Relationship :=
  acc ++ [mkRelationship row]

/-- `RealICIJDataLoader.load_entities`. -/
def load_entities (rows : List EntityRow) (limit : Option Nat) : List (String × Entity) :=
  loadLoop entityStep limit 0 [] rows

/-- `RealICIJDataLoader.load_officers`. -/
def load_officers (rows : List OfficerRow) (limit : Option Nat) : List (String × Officer) :=
  loadLoop officerStep limit 0 [] rows

/-- `RealICIJDataLoader.load_addresses`. -/
def load_addresses (rows : List AddressRow) (limit : Option Nat) : List (String × Address) :=
  loadLoop addressStep limit 0 [] rows

/-- `RealICIJDataLoader.load_relationships`. -/
def load_relationships (rows : List RelRow) (limit : Option Nat) : List Relationship :=
  loadLoop relationshipStep limit 0 [] rows

/-- The entity collection obtained by processing exactly the given rows
in order (no truncation): reference point for the truncation claims. -/
def entitiesFromRows (rows : List EntityRow) : List (String × Entity) :=
  rows.foldl entityStep []

/-- The officer collection obtained by processing exactly the given rows. -/
def officersFromRows (rows : List OfficerRow) : List (String × Officer) :=
  rows.foldl officerStep []

/-- The address collection obtained by processing exactly the given rows. -/
def addressesFromRows (rows : List AddressRow) : List (String × Address) :=
  rows.foldl addressStep []

/-- The relationship collection obtained by processing exactly the given
rows. -/
def relationshipsFromRows (rows : List RelRow) : List Relationship :=
  rows.foldl relationshipStep []

/-! ## Graph model (`graph_retriever.py`, NetworkX `MultiDiGraph`)

Node attributes are the keyword arguments of `add_node`, stored as a
string-valued attribute dict; edges are stored in insertion order, with
parallel edges allowed. -/

/-- A directed multi-edge with its attribute dict. -/
structure Edge where
  start_node : String
  end_node : String
  attrs : List (String × String)
deriving DecidableEq, Repr

/-- The NetworkX `MultiDiGraph`: node attribute dicts in insertion order
plus edges in insertion order. -/
structure Graph where
  nodes : List (String × List (String × String))
  edges : List Edge
deriving DecidableEq, Repr

/-- `graph.has_node(id)`. -/
def Graph.hasNode (g : Graph) (id : String) : Bool :=
  dictHasKey g.nodes id

/-- `graph.nodes[id]`: the attribute dict of a node (empty if absent;
callers only use it on present nodes). -/
def Graph.nodeAttrs (g : Graph) (id : String) : List (String × String) :=
  (dictFind? g.nodes id).getD []

/-- `graph.add_node(id, **attrs)`: merge the attributes into an existing
node, or append a fresh node. -/
def Graph.addNode (g : Graph) (id : String) (attrs : List (String × String)) : Graph :=
  if g.hasNode id then
    { g with nodes := g.nodes.map (fun p =>
        if p.1 = id then (id, attrs.foldl (fun d q => dictAssign d q.1 q.2) p.2) else p) }
  else
    { g with nodes := g.nodes ++ [(id, attrs)] }

/-- `graph.add_edge(u, v, **attrs)`: NetworkX silently creates missing
endpoint nodes (with empty attributes) and appends a new parallel edge. -/
def Graph.addEdge (g : Graph) (u v : String) (attrs : List (String × String)) : Graph :=
  let g1 := if g.hasNode u then g else { g with nodes := g.nodes ++ [(u, [])] }
  let g2 := if g1.hasNode v then g1 else { g1 with nodes := g1.nodes ++ [(v, [])] }
  { g2 with edges := g2.edges ++ [⟨u, v, attrs⟩] }

/-- The keyword attributes passed to `add_node` for an entity in
`_build_graph`. -/
def entityNodeAttrs (entity : Entity) : List (String × String) :=
  [("type", "entity"), ("name", entity.name), ("jurisdiction", entity.jurisdiction),
   ("company_type", entity.company_type), ("status", entity.status),
   ("source", entity.source), ("countries", entity.countries)]

/-- The keyword attributes passed to `add_node` for an officer in
`_build_graph`. -/
def officerNodeAttrs (officer : Officer) : List (String × String) :=
  [("type", "officer"), ("name", officer.name), ("countries", officer.countries),
   ("source", officer.source)]

/-- The keyword attributes passed to `add_node` for an address in
`_build_graph`. -/
def addressNodeAttrs (address : Address) : List (String × String) :=
  [("type", "address"), ("address", address.address),
   ("countries", address.countries), ("source", address.source)]

/-- The keyword attributes passed to `add_edge` for a relationship in
`_build_graph`. -/
def relEdgeAttrs (rel : Relationship) : List (String × String) :=
  [("relationship", rel.rel_type), ("link", rel.link), ("status", rel.status),
   ("source", rel.source)]

/-- The edge that `_build_graph` materializes for a relationship record. -/
def relEdge (rel : Relationship) : Edge :=
  ⟨rel.start_node, rel.end_node, relEdgeAttrs rel⟩

/-- The three node-adding loops of `_build_graph`. -/
def buildNodes (entities : List (String × Entity)) (officers : List (String × Officer))
    (addresses : List (String × Address)) : Graph :=
  let g : Graph := ⟨[], []⟩
  let g := entities.foldl (fun g p => g.addNode p.1 (entityNodeAttrs p.2)) g
  let g := officers.foldl (fun g p => g.addNode p.1 (officerNodeAttrs p.2)) g
  addresses.foldl (fun g p => g.addNode p.1 (addressNodeAttrs p.2)) g

/-- The relationship loop of `_build_graph`: an edge is added only when
both endpoint IDs already exist as nodes. -/
def addRelEdges (g : Graph) : List Relationship → Graph
  | [] => g
  | rel :: rest =>
    addRelEdges
      (if g.hasNode rel.start_node ∧ g.hasNode rel.end_node then
        g.addEdge rel.start_node rel.end_node (relEdgeAttrs rel)
       else g)
      rest

/-- `ICIJGraphRetriever._build_graph`: nodes from the three record
collections, then guarded edges from the relationship records. -/
def build_graph (entities : List (String × Entity)) (officers : List (String × Officer))
    (addresses : List (String × Address)) (relationships : List Relationship) : Graph :=
  addRelEdges (buildNodes entities officers addresses) relationships

/-! ## Graph queries used by the retriever -/

/-- `graph.neighbors(id)` on a `MultiDiGraph`: the distinct successor
nodes, in order of first edge insertion. -/
def Graph.neighbors (g : Graph) (id : String) : List String :=
  dedupKeepFirst [] ((g.edges.filter (fun e => e.start_node = id)).map (fun e => e.end_node))

/-- `graph.degree(id)` on a `MultiDiGraph`: the number of incident edges
counting multiplicity, i.e. out-degree plus in-degree (a self-loop counts
twice). -/
def Graph.degree (g : Graph) (id : String) : Nat :=
  (g.edges.filter (fun e => e.start_node = id)).length
    + (g.edges.filter (fun e => e.end_node = id)).length

/-- `graph.get_edge_data(u, v)` on a `MultiDiGraph`: the parallel edges
from `u` to `v` in insertion order (their attribute dicts, keyed 0..). -/
def Graph.edgesBetween (g : Graph) (u v : String) : List Edge :=
  g.edges.filter (fun e => e.start_node = u ∧ e.end_node = v)

/-- The `rel_info` extraction in `_get_entity_connections` /
`_get_officer_connections`: the `relationship` attribute of the first
edge between the two nodes, defaulting to the empty string. -/
def relInfo (g : Graph) (u v : String) : String :=
  match g.edgesBetween u v with
  | [] => ""
  | e :: _ => dictGetD e.attrs "relationship" ""

/-- `node_data.get('type')`. -/
def Graph.nodeType (g : Graph) (id : String) : Option String :=
  dictFind? (g.nodeAttrs id) "type"

/-! ## Neighborhood scans (`_get_entity_connections`, `_get_officer_connections`) -/

/-- An item of `connections['officers']`. -/
structure OfficerConn where
  name : String
  countries : String
  relationship : String
deriving DecidableEq, Repr

/-- An item of `connections['addresses']`. -/
structure AddressConn where
  address : String
  countries : String
  relationship : String
deriving DecidableEq, Repr

/-- An item of `connections['other_entities']` (or of an officer's
`connections['entities']`). -/
structure EntityConn where
  name : String
  jurisdiction : String
  relationship : String
deriving DecidableEq, Repr

/-- The `connections` dict built by `_get_entity_connections`. -/
structure EntityConnections where
  officers : List OfficerConn
  addresses : List AddressConn
  other_entities : List EntityConn
deriving DecidableEq, Repr

/-- The officer item appended for a neighbor of type `officer`. -/
def officerConnOf (g : Graph) (v : String) (ri : String) : OfficerConn :=
  ⟨dictGetD (g.nodeAttrs v) "name" "", dictGetD (g.nodeAttrs v) "countries" "", ri⟩

/-- The address item appended for a neighbor of type `address`. -/
def addressConnOf (g : Graph) (v : String) (ri : String) : AddressConn :=
  ⟨dictGetD (g.nodeAttrs v) "address" "", dictGetD (g.nodeAttrs v) "countries" "", ri⟩

/-- The entity item appended for a neighbor of type `entity`. -/
def entityConnOf (g : Graph) (v : String) (ri : String) : EntityConn :=
  ⟨dictGetD (g.nodeAttrs v) "name" "", dictGetD (g.nodeAttrs v) "jurisdiction" "", ri⟩

/-- The neighbor loop of `_get_entity_connections`: dispatch each
neighbor into one of the three buckets by its `type` attribute, keeping
iteration order. -/
def entityConnsLoop (g : Graph) (entity_id : String) : List String → EntityConnections
  | [] => ⟨[], [], []⟩
  | v :: vs =>
    let rest := entityConnsLoop g entity_id vs
    let ri := relInfo g entity_id v
    if g.nodeType v = some "officer" then
      { rest with officers := officerConnOf g v ri :: rest.officers }
    else if g.nodeType v = some "address" then
      { rest with addresses := addressConnOf g v ri :: rest.addresses }
    else if g.nodeType v = some "entity" then
      { rest with other_entities := entityConnOf g v ri :: rest.other_entities }
    else rest

/-- `ICIJGraphRetriever._get_entity_connections`. -/
def get_entity_connections (g : Graph) (entity_id : String) : EntityConnections :=
  if g.hasNode entity_id then entityConnsLoop g entity_id (g.neighbors entity_id)
  else ⟨[], [], []⟩

/-- The neighbor loop of `_get_officer_connections`: only neighbors of
type `entity` are collected. -/
def officerConnsLoop (g : Graph) (officer_id : String) : List String → List EntityConn
  | [] => []
  | v :: vs =>
    let rest := officerConnsLoop g officer_id vs
    if g.nodeType v = some "entity" then
      entityConnOf g v (relInfo g officer_id v) :: rest
    else rest

/-- `ICIJGraphRetriever._get_officer_connections` (the `entities` list of
the returned dict). -/
def get_officer_connections (g : Graph) (officer_id : String) : List EntityConn :=
  if g.hasNode officer_id then officerConnsLoop g officer_id (g.neighbors officer_id)
  else []

/-! ## Document templates -/

/-- The `officer_info` list of `_create_entity_document`: first 5
connected officers, each annotated with its relationship label or the
fallback `connected_to`. -/
def officerInfoList (connections : EntityConnections) : List String :=
  (connections.officers.take 5).map
    (fun o => o.name ++ " (" ++ orElse o.relationship "connected_to" ++ ")")

/-- The `addr_info` list of `_create_entity_document`: first 3 registered
addresses, each annotated with its relationship label or the fallback
`registered_address`. -/
def addrInfoList (connections : EntityConnections) : List String :=
  (connections.addresses.take 3).map
    (fun a => a.address ++ " (" ++ orElse a.relationship "registered_address" ++ ")")

/-- `ICIJGraphRetriever._create_entity_document`. -/
def create_entity_document (entity : Entity) (connections : EntityConnections) : String :=
  let content := "Offshore Entity: " ++ entity.name ++ "\n"
  let content := content ++ "Entity ID: " ++ entity.entity_id ++ "\n"
  let content := content ++ "Jurisdiction: " ++ entity.jurisdiction ++ "\n"
  let content := if entity.company_type ≠ "" then
    content ++ "Type: " ++ entity.company_type ++ "\n" else content
  let content := content ++ "Status: " ++ entity.status ++ "\n"
  let content := if entity.incorporation_date ≠ "" then
    content ++ "Incorporation Date: " ++ entity.incorporation_date ++ "\n" else content
  let content := if entity.address ≠ "" then
    content ++ "Address: " ++ entity.address ++ "\n" else content
  let content := content ++ "Source: " ++ entity.source ++ "\n"
  let content := if connections.officers ≠ [] then
    content ++ "\nConnected Officers: " ++ String.intercalate ", " (officerInfoList connections) ++ "\n"
  else content
  let content := if connections.addresses ≠ [] then
    content ++ "\nRegistered Addresses: " ++ String.intercalate "; " (addrInfoList connections) ++ "\n"
  else content
  let content := content ++ "\nDescription: This is an offshore entity from the "
    ++ entity.source ++ " investigation"
  let content := if entity.jurisdiction ≠ "" then
    content ++ " incorporated in " ++ entity.jurisdiction else content
  let content := content ++ ". This entity was revealed in the " ++ entity.source
    ++ " investigation"
  let content := if entity.jurisdiction ≠ "" then
    content ++ " and is incorporated in " ++ entity.jurisdiction else content
  content ++ "."

/-- The `entity_info` list of `_create_officer_document`: first 5
connected entities with name, jurisdiction and relationship label or the
fallback `officer_of`. -/
def entityInfoList (connected : List EntityConn) : List String :=
  (connected.take 5).map
    (fun e => e.name ++ " in " ++ e.jurisdiction ++ " (" ++ orElse e.relationship "officer_of" ++ ")")

/-- `ICIJGraphRetriever._create_officer_document`. -/
def create_officer_document (officer : Officer) (connected : List EntityConn) : String :=
  let content := "Individual: " ++ officer.name ++ "\n"
  let content := content ++ "Officer ID: " ++ officer.officer_id ++ "\n"
  let content := if officer.countries ≠ "" then
    content ++ "Country: " ++ officer.countries ++ "\n" else content
  let content := content ++ "Source: " ++ officer.source ++ "\n"
  let content := if connected ≠ [] then
    content ++ "\nConnected Entities: " ++ String.intercalate ", " (entityInfoList connected) ++ "\n"
  else content
  let content := content ++ "\nDescription: " ++ officer.name ++ " is an individual"
  let content := if officer.countries ≠ "" then
    content ++ " from " ++ officer.countries else content
  let content := content ++ " who appears in the " ++ officer.source ++ " investigation"
  let content := if connected ≠ [] then
    content ++ " with connections to " ++ toString connected.length ++ " offshore entities"
  else content
  content ++ "."

/-! ## Documents and the vector store (`build_vector_store`) -/

/-- A metadata value (documents carry strings and, for `entity_count` and
`network_degree`, integers). -/
inductive MVal where
  | str (s : String)
  | nat (n : Nat)
deriving DecidableEq, Repr

/-- Document metadata: an insertion-ordered dict of metadata values. -/
abbrev Metadata := List (String × MVal)

/-- A LangChain `Document`: page content plus a metadata dict. -/
structure Doc where
  page_content : String
  metadata : Metadata
deriving DecidableEq, Repr

/-- The entity `Document` built inside the entity loop of
`build_vector_store` (connections scan, content template, metadata dict). -/
def mkEntityDoc (g : Graph) (entity_id : String) (entity : Entity) : Doc :=
  let connected_info := get_entity_connections g entity_id
  let content := create_entity_document entity connected_info
  { page_content := content
    metadata :=
      [("entity_id", MVal.str entity_id), ("name", MVal.str entity.name),
       ("type", MVal.str "entity"), ("jurisdiction", MVal.str entity.jurisdiction),
       ("company_type", MVal.str entity.company_type), ("status", MVal.str entity.status),
       ("source", MVal.str entity.source), ("countries", MVal.str entity.countries),
       ("title", MVal.str ("Entity: " ++ entity.name))] }

/-- The officer `Document` built inside the officer loop of
`build_vector_store`. -/
def mkOfficerDoc (g : Graph) (officer_id : String) (officer : Officer) : Doc :=
  let connected_info := get_officer_connections g officer_id
  let content := create_officer_document officer connected_info
  { page_content := content
    metadata :=
      [("officer_id", MVal.str officer_id), ("name", MVal.str officer.name),
       ("type", MVal.str "officer"), ("countries", MVal.str officer.countries),
       ("source", MVal.str officer.source),
       ("title", MVal.str ("Officer: " ++ officer.name))] }

/-- The distinct entity source labels, in first-occurrence order (the key
order of the `source_stats` dict in `_create_investigation_documents`). -/
def distinctSources (entities : List (String × Entity)) : List String :=
  dedupKeepFirst [] (entities.map (fun p => p.2.source))

/-- `source_stats[source]['entities']`: number of loaded entities with
the given source label. -/
def sourceEntityCount (entities : List (String × Entity)) (source : String) : Nat :=
  (entities.filter (fun p => p.2.source = source)).length

/-- `source_stats[source]['jurisdictions']` as an ordered list: the
distinct jurisdictions among entities of the given source, in
first-occurrence order. -/
def sourceJurisdictions (entities : List (String × Entity)) (source : String) : List String :=
  dedupKeepFirst [] ((entities.filter (fun p => p.2.source = source)).map (fun p => p.2.jurisdiction))

/-- `source_jurisdictions[j]`: number of entities of the source with the
given jurisdiction. -/
def sourceJurisdictionCount (entities : List (String × Entity)) (source j : String) : Nat :=
  (entities.filter (fun p => p.2.source = source ∧ p.2.jurisdiction = j)).length

/-- Stable insertion into a count-descending list (helper for the
`sorted(..., key=..., reverse=True)` call). -/
def insertDescByCount (p : String × Nat) : List (String × Nat) → List (String × Nat)
  | [] => [p]
  | q :: qs => if p.2 ≤ q.2 then q :: insertDescByCount p qs else p :: q :: qs

/-- `sorted(source_jurisdictions.items(), key=count, reverse=True)`:
stable descending sort by count. -/
def sortDescByCount (l : List (String × Nat)) : List (String × Nat) :=
  l.foldr insertDescByCount []

/-- One investigation summary `Document` of
`_create_investigation_documents`. -/
def mkInvestigationDoc (entities : List (String × Entity)) (source : String) : Doc :=
  let entCount := sourceEntityCount entities source
  let juris := sourceJurisdictions entities source
  let pairs := juris.map (fun j => (j, sourceJurisdictionCount entities source j))
  let top_jurisdictions := (sortDescByCount pairs).take 5
  let content := "Investigation: " ++ source ++ "\n\n"
  let content := content ++ "The " ++ source ++ " investigation revealed "
    ++ commaFormat entCount ++ " offshore entities "
  let content := content ++ "across " ++ toString juris.length ++ " jurisdictions.\n\n"
  let content := content ++ "Key jurisdictions include: "
  let content := content ++ String.intercalate ", "
    (top_jurisdictions.map (fun p => p.1 ++ " (" ++ toString p.2 ++ " entities)"))
  let content := content ++ ".\n\n"
  let content := content ++ "This investigation exposed complex offshore structures and financial networks "
  let content := content ++ "involving entities, individuals, and intermediaries across multiple jurisdictions."
  { page_content := content
    metadata :=
      [("type", MVal.str "investigation"), ("source", MVal.str source),
       ("title", MVal.str ("Investigation: " ++ source)),
       ("entity_count", MVal.nat entCount)] }

/-- `ICIJGraphRetriever._create_investigation_documents`: one summary
document per distinct entity source label. -/
def create_investigation_documents (entities : List (String × Entity)) : List Doc :=
  (distinctSources entities).map (mkInvestigationDoc entities)

/-- The entity loop of `build_vector_store`: one document per entity,
breaking as soon as `doc_count` reaches `max_docs`. -/
def entityDocsLoop (g : Graph) (max_docs : Nat) : Nat → List (String × Entity) → List Doc
  | _, [] => []
  | doc_count, (id, e) :: rest =>
    if max_docs ≤ doc_count then []
    else mkEntityDoc g id e :: entityDocsLoop g max_docs (doc_count + 1) rest

/-- The officer loop of `build_vector_store`, continuing the `doc_count`
left by the entity loop. -/
def officerDocsLoop (g : Graph) (max_docs : Nat) : Nat → List (String × Officer) → List Doc
  | _, [] => []
  | doc_count, (id, o) :: rest =>
    if max_docs ≤ doc_count then []
    else mkOfficerDoc g id o :: officerDocsLoop g max_docs (doc_count + 1) rest

/-- The full document list assembled by `build_vector_store`: capped
entity documents, then capped officer documents, then at most 100
investigation documents. -/
def buildVectorStoreDocs (g : Graph) (entities : List (String × Entity))
    (officers : List (String × Officer)) (max_docs : Nat) : List Doc :=
  let entityDocs := entityDocsLoop g max_docs 0 entities
  let officerDocs := officerDocsLoop g max_docs entityDocs.length officers
  entityDocs ++ officerDocs ++ (create_investigation_documents entities).take 100

/-! ## Retriever state and retrieval -/

/-- The fields of `ICIJGraphRetriever` that the retrieval path reads.
The FAISS store is modelled as the list of indexed documents
(`none` while no store has been built). -/
structure RetrieverState where
  graph : Graph
  entities : List (String × Entity)
  officers : List (String × Officer)
  document_store : Option (List Doc)

/-- `ICIJGraphRetriever.build_vector_store`: synthesize the documents
and, only when the list is non-empty, replace the store with a FAISS
index over them. -/
def build_vector_store (st : RetrieverState) (max_docs : Nat) : RetrieverState :=
  let documents := buildVectorStoreDocs st.graph st.entities st.officers max_docs
  if documents.isEmpty then st else { st with document_store := some documents }

/-- `mlookup`/`msetVal`: Python dict read and write on metadata. -/
def mlookup (m : Metadata) (k : String) : Option MVal :=
  dictFind? m k

/-- `metadata[k] = v`. -/
def msetVal (m : Metadata) (k : String) (v : MVal) : Metadata :=
  dictAssign m k v

/-- The `neighbor_info` list of `_enhance_with_graph_context`: the first
5 graph neighbors, keeping only officers (named) and addresses (by
country). -/
def connectedToNames (g : Graph) (entity_id : String) : List String :=
  ((g.neighbors entity_id).take 5).filterMap (fun v =>
    if g.nodeType v = some "officer" then
      some ("Officer: " ++ dictGetD (g.nodeAttrs v) "name" "Unknown")
    else if g.nodeType v = some "address" then
      some ("Address: " ++ dictGetD (g.nodeAttrs v) "countries" "Unknown")
    else none)

/-- The per-document body of `_enhance_with_graph_context`: a fresh
`Document` with copied content and copied metadata, enriched with
`network_degree` and `connected_to` when the document is an entity whose
`entity_id` is a (truthy) node of the graph. -/
def enhanceDoc (g : Graph) (doc : Doc) : Doc :=
  if mlookup doc.metadata "type" = some (MVal.str "entity") then
    match mlookup doc.metadata "entity_id" with
    | some (MVal.str entity_id) =>
      if entity_id ≠ "" ∧ g.hasNode entity_id = true then
        let m := msetVal doc.metadata "network_degree" (MVal.nat (g.degree entity_id))
        let m := msetVal m "connected_to"
          (MVal.str (String.intercalate "; " (connectedToNames g entity_id)))
        { page_content := doc.page_content, metadata := m }
      else { page_content := doc.page_content, metadata := doc.metadata }
    | _ => { page_content := doc.page_content, metadata := doc.metadata }
  else { page_content := doc.page_content, metadata := doc.metadata }

/-- `ICIJGraphRetriever._enhance_with_graph_context` (value view). -/
def enhance_with_graph_context (g : Graph) (docs : List Doc) : List Doc :=
  docs.map (enhanceDoc g)

/-- `ICIJGraphRetriever.retrieve`.  FAISS `similarity_search(query, k)`
returns the `k` most similar indexed documents; we abstract the
similarity ranking as a caller-supplied `rank` function (constrained to a
permutation of the indexed documents in the theorems) and take its first
`k * 2` elements, mirroring the overfetch.  A missing store triggers the
lazy `build_vector_store()` with its default cap of 5000. -/
def retrieve (st : RetrieverState) (rank : String → List Doc → List Doc)
    (query : String) (k : Nat) : List Doc × RetrieverState :=
  let st1 := match st.document_store with
    | none => build_vector_store st 5000
    | some _ => st
  match st1.document_store with
  | none => ([], st1)
  | some docs =>
    let vector_docs := (rank query docs).take (k * 2)
    let enhanced_docs := enhance_with_graph_context st1.graph vector_docs
    (enhanced_docs.take k, st1)

/-! ## Heap view of `_enhance_with_graph_context`

Python `Document` metadata are mutable dicts on a heap; the enrichment
must write only to the fresh copy made by `doc.metadata.copy()`.  We make
the store explicit: a heap of metadata cells, documents holding cell
references.  `doc.metadata.copy()` allocates a fresh cell at the end of
the heap; the two enrichment writes hit only that fresh cell. -/

/-- A document holding a reference to its metadata cell. -/
structure HDoc where
  page_content : String
  metaRef : Nat
deriving DecidableEq, Repr

/-- The metadata heap. -/
abbrev Heap := List Metadata

/-- One iteration of `_enhance_with_graph_context` in the heap view:
allocate a copy of the document's metadata cell, conditionally write the
two enrichment fields to the copy, return the fresh document. -/
def enhance_doc_heap (g : Graph) (heap : Heap) (doc : HDoc) : Heap × HDoc :=
  let m := heap.getD doc.metaRef []
  let r := heap.length
  let heap1 := heap ++ [m]
  let heap2 :=
    if mlookup m "type" = some (MVal.str "entity") then
      match mlookup m "entity_id" with
      | some (MVal.str entity_id) =>
        if entity_id ≠ "" ∧ g.hasNode entity_id = true then
          heap1.set r (msetVal (msetVal m "network_degree" (MVal.nat (g.degree entity_id)))
            "connected_to" (MVal.str (String.intercalate "; " (connectedToNames g entity_id))))
        else heap1
      | _ => heap1
    else heap1
  (heap2, ⟨doc.page_content, r⟩)

/-- `_enhance_with_graph_context` in the heap view: enhance each
candidate in order, threading the heap. -/
def enhance_with_graph_context_heap (g : Graph) : Heap → List HDoc → Heap × List HDoc
  | heap, [] => (heap, [])
  | heap, d :: ds =>
    let hd := enhance_doc_heap g heap d
    let rest := enhance_with_graph_context_heap g hd.1 ds
    (rest.1, hd.2 :: rest.2)

/-- The heap after `n` successive retrieval enrichments over the same
indexed documents. -/
def enhanceIterHeap (g : Graph) : Nat → Heap → List HDoc → Heap
  | 0, heap, _ => heap
  | n + 1, heap, docs => enhanceIterHeap g n (enhance_with_graph_context_heap g heap docs).1 docs

/-! ## Helper predicate and concrete sample data

`WellTypedNodes` states that every node attribute dict carries one of the
three `type` discriminators `_build_graph` assigns; the sample records
below instantiate the theorems at concrete inputs. -/

/-- The `type` attribute value is one of the three discriminators
assigned by `_build_graph`. -/
def TypeOK (o : Option String) : Prop :=
  o = some "entity" ∨ o = some "officer" ∨ o = some "address"

/-- Every node of the list carries a `type` attribute that is one of the
three discriminators assigned by `_build_graph`. -/
def WellTypedNodes (nodes : List (String × List (String × String))) : Prop :=
  ∀ p ∈ nodes, TypeOK (dictFind? p.2 "type")

/-- A concrete loaded entity record. -/
def entW : Entity :=
  { entity_id := "E1", name := "Acme Holdings", original_name := "Acme Holdings",
    former_name := "", jurisdiction := "Panama", jurisdiction_description := "",
    company_type := "Ltd", address := "", internal_id := "", incorporation_date := "",
    inactivation_date := "", struck_off_date := "", status := "Active",
    service_provider := "Prov", country_codes := "", countries := "PAN",
    source := "Panama Papers", valid_until := "", note := "" }

/-- A concrete loaded officer record. -/
def offW : Officer :=
  { officer_id := "O1", name := "Jane Roe", countries := "US", country_codes := "",
    source := "Panama Papers", valid_until := "", note := "" }

/-- A concrete relationship record connecting the sample entity to the
sample officer. -/
def relW1 : Relationship :=
  { start_node := "E1", end_node := "O1", rel_type := "officer_of", link := "",
    status := "", start_date := "", end_date := "", source := "Panama Papers" }

/-- A second, parallel relationship record between the same endpoints. -/
def relW2 : Relationship :=
  { start_node := "E1", end_node := "O1", rel_type := "director_of", link := "",
    status := "", start_date := "", end_date := "", source := "Panama Papers" }

/-- A relationship record whose end node was never loaded. -/
def relWdangling : Relationship :=
  { start_node := "E1", end_node := "X9", rel_type := "officer_of", link := "",
    status := "", start_date := "", end_date := "", source := "Panama Papers" }

/-- A concrete relationships CSV row. -/
def relRowW : RelRow :=
  { node_id_start := "E1", node_id_end := "O1", rel_type := "officer_of", link := "",
    status := "active", start_date := "", end_date := "", sourceID := "Panama Papers" }

/-- Sample graph: one entity, one officer, two parallel edges between
them. -/
def gW : Graph :=
  build_graph [("E1", entW)] [("O1", offW)] [] [relW1, relW2]

/-- Sample graph with one valid and one dangling relationship. -/
def gDangW : Graph :=
  build_graph [("E1", entW)] [("O1", offW)] [] [relW1, relWdangling]

/-- The entity document synthesized for the sample entity over `gW`. -/
def docW : Doc := mkEntityDoc gW "E1" entW

/-- The identity similarity ranking (every theorem only constrains the
ranking to be a permutation). -/
def rankW : String → List Doc → List Doc := fun _ docs => docs

/-- Retriever state with a built store over the sample data. -/
def stW : RetrieverState :=
  { graph := gW, entities := [("E1", entW)], officers := [("O1", offW)],
    document_store := some (buildVectorStoreDocs gW [("E1", entW)] [("O1", offW)] 5000) }

/-- Retriever state over an empty dataset, with no store built. -/
def stEmptyW : RetrieverState :=
  { graph := build_graph [] [] [] [], entities := [], officers := [],
    document_store := none }

/-- Sample heap holding the sample document's metadata in cell 0. -/
def heapW : Heap := [docW.metadata]

/-- Sample heap document referencing cell 0. -/
def hdocW : HDoc := ⟨docW.page_content, 0⟩

/-! ## Dictionary lemmas -/

theorem dictFind?_dictAssign (d : List (String × α)) (k k' : String) (v : α) :
    dictFind? (dictAssign d k v) k' = if k' = k then some v else dictFind? d k' := by
  induction d with
  | nil =>
    by_cases h : k' = k
    · subst h; simp [dictAssign, dictFind?, List.find?]
    · simp [dictAssign, dictFind?, List.find?, h, Ne.symm h]
  | cons p ps ih =>
    by_cases hpk : p.1 = k
    · by_cases h : k' = k
      · subst h; simp [dictAssign, dictFind?, List.find?, hpk]
      · simp [dictAssign, dictFind?, List.find?, hpk, h, Ne.symm h]
    · by_cases hp' : p.1 = k'
      · have h : ¬ k' = k := fun hc => hpk (hp'.trans hc)
        simp [dictAssign, dictFind?, List.find?, hpk, hp', h]
      · simpa [dictAssign, dictFind?, List.find?, hpk, hp'] using ih

/-! ## Loader-loop lemmas -/

theorem loadLoop_none (step : β → α → β) (rows : List α) :
    ∀ c acc, loadLoop step none c acc rows = rows.foldl step acc := by
  induction rows with
  | nil => intro c acc; rfl
  | cons r rs ih => intro c acc; simp [loadLoop, limitTruthy, ih]

theorem loadLoop_zero (step : β → α → β) (rows : List α) :
    ∀ c acc, loadLoop step (some 0) c acc rows = rows.foldl step acc := by
  induction rows with
  | nil => intro c acc; rfl
  | cons r rs ih => intro c acc; simp [loadLoop, limitTruthy, ih]

theorem loadLoop_some (step : β → α → β) (N : Nat) (hN : 0 < N) (rows : List α) :
    ∀ c acc, loadLoop step (some N) c acc rows = (rows.take (N - c)).foldl step acc := by
  induction rows with
  | nil => intro c acc; simp [loadLoop]
  | cons r rs ih =>
    intro c acc
    have hNz : N ≠ 0 := by omega
    by_cases h : N ≤ c
    · have h0 : N - c = 0 := by omega
      simp [loadLoop, limitTruthy, h, h0, hNz]
    · have h1 : N - c = (N - (c + 1)) + 1 := by omega
      simp only [loadLoop, limitTruthy]
      rw [if_neg (by simp [h]), h1]
      simpa using ih (c + 1) (step acc r)

theorem relationshipsFromRows_eq_map (rows : List RelRow) :
    relationshipsFromRows rows = rows.map mkRelationship := by
  suffices h : ∀ acc, rows.foldl relationshipStep acc = acc ++ rows.map mkRelationship by
    simpa [relationshipsFromRows] using h []
  induction rows with
  | nil => intro acc; simp
  | cons r rs ih => intro acc; simp [relationshipStep, ih]

/-- Claim C9, counterexample: with a row-count limit of 0 the loader does
not return the first 0 rows (the empty collection); it loads every row,
because Python's `if limit and count >= limit` treats a 0 limit as falsy. -/
theorem load_limit_counterexample :
    load_relationships [relRowW] (some 0) ≠ relationshipsFromRows (List.take 0 [relRowW]) := by
  decide

/-- Claim C9 (amended: for every POSITIVE row-count limit N): each load
category truncates to exactly the first N rows in input file order (all
rows when the file is shorter); the limit-0 case is settled separately. -/
theorem load_limits_take_first (N : Nat) (hN : 0 < N) (erows : List EntityRow)
    (orows : List OfficerRow) (arows : List AddressRow) (rrows : List RelRow) :
    load_entities erows (some N) = entitiesFromRows (erows.take N)
  ∧ load_officers orows (some N) = officersFromRows (orows.take N)
  ∧ load_addresses arows (some N) = addressesFromRows (arows.take N)
  ∧ load_relationships rrows (some N) = relationshipsFromRows (rrows.take N)
  ∧ load_relationships rrows (some N) = (rrows.take N).map mkRelationship := by
  have h4 : load_relationships rrows (some N) = relationshipsFromRows (rrows.take N) := by
    simp [load_relationships, relationshipsFromRows, loadLoop_some _ N hN]
  refine ⟨?_, ?_, ?_, h4, h4.trans (relationshipsFromRows_eq_map _)⟩ <;>
    simp [load_entities, load_officers, load_addresses, entitiesFromRows,
      officersFromRows, addressesFromRows, loadLoop_some _ N hN]

/-- Claim C9, witness: the amended theorem applied at limit 1 on a
one-row relationship file. -/
theorem load_limits_take_first_witness :
    0 < 1 ∧ load_relationships [relRowW] (some 1) = relationshipsFromRows ([relRowW].take 1) :=
  ⟨by decide, (load_limits_take_first 1 (by decide) [] [] [] [relRowW]).2.2.2.1⟩

/-- Claim C10: a limit of 0 is falsy, so truncation is disabled and every
row of each category is loaded, exactly as with no limit at all. -/
theorem load_limit_zero_disables (erows : List EntityRow) (orows : List OfficerRow)
    (arows : List AddressRow) (rrows : List RelRow) :
    load_entities erows (some 0) = entitiesFromRows erows
  ∧ load_entities erows (some 0) = load_entities erows none
  ∧ load_officers orows (some 0) = officersFromRows orows
  ∧ load_officers orows (some 0) = load_officers orows none
  ∧ load_addresses arows (some 0) = addressesFromRows arows
  ∧ load_addresses arows (some 0) = load_addresses arows none
  ∧ load_relationships rrows (some 0) = relationshipsFromRows rrows
  ∧ load_relationships rrows (some 0) = load_relationships rrows none := by
  refine ⟨?_, ?_, ?_, ?_, ?_, ?_, ?_, ?_⟩ <;>
    simp [load_entities, load_officers, load_addresses, load_relationships,
      entitiesFromRows, officersFromRows, addressesFromRows, relationshipsFromRows,
      loadLoop_zero, loadLoop_none]

/-- Claim C10, witness: limit 0 on a one-row relationship file loads the
row. -/
theorem load_limit_zero_disables_witness :
    load_relationships [relRowW] (some 0) = relationshipsFromRows [relRowW] :=
  (load_limit_zero_disables [] [] [] [relRowW]).2.2.2.2.2.2.1

/-! ## Graph-builder lemmas -/

theorem addEdge_nodes_of_hasNode (g : Graph) (u v : String) (attrs : List (String × String))
    (hu : g.hasNode u = true) (hv : g.hasNode v = true) :
    (g.addEdge u v attrs).nodes = g.nodes ∧ (g.addEdge u v attrs).edges = g.edges ++ [⟨u, v, attrs⟩] := by
  simp [Graph.addEdge, hu, hv]

theorem addRelEdges_spec (rels : List Relationship) (g : Graph) :
    (addRelEdges g rels).nodes = g.nodes ∧
    (addRelEdges g rels).edges = g.edges ++
      (rels.filter (fun r => g.hasNode r.start_node && g.hasNode r.end_node)).map relEdge := by
  induction rels generalizing g with
  | nil => simp [addRelEdges]
  | cons r rs ih =>
    by_cases h : g.hasNode r.start_node = true ∧ g.hasNode r.end_node = true
    · obtain ⟨hn, he⟩ := addEdge_nodes_of_hasNode g r.start_node r.end_node (relEdgeAttrs r) h.1 h.2
      have hhas : ∀ x, (g.addEdge r.start_node r.end_node (relEdgeAttrs r)).hasNode x = g.hasNode x := by
        intro x; simp [Graph.hasNode, hn]
      obtain ⟨ihn, ihe⟩ := ih (g.addEdge r.start_node r.end_node (relEdgeAttrs r))
      constructor
      · simpa [addRelEdges, h, hn] using ihn
      · simp only [addRelEdges, if_pos h]
        rw [ihe, he]
        simp [List.filter_cons, h.1, h.2, hhas, relEdge]
    · obtain ⟨ihn, ihe⟩ := ih g
      have hb : ¬ (g.hasNode r.start_node && g.hasNode r.end_node) = true := by
        simpa [Bool.and_eq_true] using h
      constructor
      · simpa [addRelEdges, h] using ihn
      · simp only [addRelEdges, if_neg h]
        rw [ihe]
        simp [List.filter_cons, hb]

theorem addNode_edges (g : Graph) (id : String) (attrs : List (String × String)) :
    (g.addNode id attrs).edges = g.edges := by
  unfold Graph.addNode; split <;> rfl

theorem foldl_addNode_edges {γ : Type} (f : γ → List (String × String))
    (l : List (String × γ)) (g : Graph) :
    (l.foldl (fun g p => g.addNode p.1 (f p.2)) g).edges = g.edges := by
  induction l generalizing g with
  | nil => rfl
  | cons p ps ih => simp [ih, addNode_edges]

theorem buildNodes_edges (entities : List (String × Entity)) (officers : List (String × Officer))
    (addresses : List (String × Address)) :
    (buildNodes entities officers addresses).edges = [] := by
  simp [buildNodes, foldl_addNode_edges]

theorem build_graph_nodes (entities : List (String × Entity)) (officers : List (String × Officer))
    (addresses : List (String × Address)) (relationships : List Relationship) :
    (build_graph entities officers addresses relationships).nodes
      = (buildNodes entities officers addresses).nodes :=
  (addRelEdges_spec relationships (buildNodes entities officers addresses)).1

theorem build_graph_hasNode (entities : List (String × Entity)) (officers : List (String × Officer))
    (addresses : List (String × Address)) (relationships : List Relationship) (x : String) :
    (build_graph entities officers addresses relationships).hasNode x
      = (buildNodes entities officers addresses).hasNode x := by
  simp [Graph.hasNode, build_graph_nodes]

theorem build_graph_edges (entities : List (String × Entity)) (officers : List (String × Officer))
    (addresses : List (String × Address)) (relationships : List Relationship) :
    (build_graph entities officers addresses relationships).edges
      = (relationships.filter (fun r =>
          (buildNodes entities officers addresses).hasNode r.start_node
            && (buildNodes entities officers addresses).hasNode r.end_node)).map relEdge := by
  have h := (addRelEdges_spec relationships (buildNodes entities officers addresses)).2
  rw [buildNodes_edges] at h
  simpa [build_graph] using h

/-- Claim C1: in the built graph (a) relationship records never
contribute nodes, (b) edge count is bounded by the relationship count,
(c) a relationship's edge (carrying relationship-type, link, status,
source) is present if and only if both endpoint IDs are nodes, and (d)
every edge's endpoints are nodes. -/
theorem build_graph_edge_iff (entities : List (String × Entity)) (officers : List (String × Officer))
    (addresses : List (String × Address)) (relationships : List Relationship) :
    (build_graph entities officers addresses relationships).nodes
        = (buildNodes entities officers addresses).nodes
  ∧ (build_graph entities officers addresses relationships).edges.length ≤ relationships.length
  ∧ (∀ rel ∈ relationships,
      ((build_graph entities officers addresses relationships).hasNode rel.start_node = true
        ∧ (build_graph entities officers addresses relationships).hasNode rel.end_node = true)
      ↔ relEdge rel ∈ (build_graph entities officers addresses relationships).edges)
  ∧ (∀ e ∈ (build_graph entities officers addresses relationships).edges,
      (build_graph entities officers addresses relationships).hasNode e.start_node = true
        ∧ (build_graph entities officers addresses relationships).hasNode e.end_node = true) := by
  refine ⟨build_graph_nodes _ _ _ _, ?_, ?_, ?_⟩
  · rw [build_graph_edges]
    calc ((relationships.filter _).map relEdge).length
        = (relationships.filter _).length := List.length_map _ _
      _ ≤ relationships.length := List.length_filter_le _ _
  · intro rel hrel
    constructor
    · intro hboth
      rw [build_graph_edges]
      refine List.mem_map_of_mem relEdge ?_
      rw [List.mem_filter]
      refine ⟨hrel, ?_⟩
      rw [build_graph_hasNode] at hboth
      rw [build_graph_hasNode] at hboth
      simp [hboth.1, hboth.2]
    · intro hmem
      rw [build_graph_edges] at hmem
      obtain ⟨r', hr', heq⟩ := List.mem_map.mp hmem
      obtain ⟨-, hok⟩ := List.mem_filter.mp hr'
      have hs : r'.start_node = rel.start_node ∧ r'.end_node = rel.end_node := by
        simpa [relEdge, Edge.mk.injEq] using And.intro (congrArg Edge.start_node heq)
          (congrArg Edge.end_node heq)
      rw [build_graph_hasNode, build_graph_hasNode]
      rw [← hs.1, ← hs.2]
      simpa [Bool.and_eq_true] using hok
  · intro e he
    rw [build_graph_edges] at he
    obtain ⟨r', hr', heq⟩ := List.mem_map.mp he
    obtain ⟨-, hok⟩ := List.mem_filter.mp hr'
    have hs : e.start_node = r'.start_node ∧ e.end_node = r'.end_node := by
      constructor
      · exact (congrArg Edge.start_node heq).symm
      · exact (congrArg Edge.end_node heq).symm
    rw [build_graph_hasNode, build_graph_hasNode, hs.1, hs.2]
    simpa [Bool.and_eq_true] using hok

/-- Claim C1, witness: over a dataset with one valid and one dangling
relationship, the theorem bounds the edge count by 2 and places the
valid edge in the graph. -/
theorem build_graph_edge_iff_witness :
    gDangW.edges.length ≤ 2 ∧ relEdge relW1 ∈ gDangW.edges := by
  have h := build_graph_edge_iff [("E1", entW)] [("O1", offW)] [] [relW1, relWdangling]
  refine ⟨h.2.1, ?_⟩
  exact (h.2.2.1 relW1 (by simp)).mp (by decide)

/-! ## Vector-store document-count lemmas -/

theorem entityDocsLoop_eq_take (g : Graph) (max_docs : Nat) (entities : List (String × Entity)) :
    ∀ c, entityDocsLoop g max_docs c entities
      = (entities.take (max_docs - c)).map (fun p => mkEntityDoc g p.1 p.2) := by
  induction entities with
  | nil => intro c; simp [entityDocsLoop]
  | cons p ps ih =>
    intro c
    cases p with
    | mk id e =>
      by_cases h : max_docs ≤ c
      · have h0 : max_docs - c = 0 := by omega
        simp [entityDocsLoop, h, h0]
      · have h1 : max_docs - c = (max_docs - (c + 1)) + 1 := by omega
        simp [entityDocsLoop, h, h1, ih (c + 1)]

theorem officerDocsLoop_eq_take (g : Graph) (max_docs : Nat) (officers : List (String × Officer)) :
    ∀ c, officerDocsLoop g max_docs c officers
      = (officers.take (max_docs - c)).map (fun p => mkOfficerDoc g p.1 p.2) := by
  induction officers with
  | nil => intro c; simp [officerDocsLoop]
  | cons p ps ih =>
    intro c
    cases p with
    | mk id o =>
      by_cases h : max_docs ≤ c
      · have h0 : max_docs - c = 0 := by omega
        simp [officerDocsLoop, h, h0]
      · have h1 : max_docs - c = (max_docs - (c + 1)) + 1 := by omega
        simp [officerDocsLoop, h, h1, ih (c + 1)]

/-- Claim C2 (amended): the entity and officer loops are capped by
`max_docs` (entities take priority, then officers), the investigation
documents — one per distinct entity source — are capped at 100, and the
total document count is `min(entities+officers, max_docs)` plus the
investigation count, hence at most `max_docs + 100` (NOT at most
`max_docs`: the investigation documents are appended after the cap
check). -/
theorem build_vector_store_caps (g : Graph) (entities : List (String × Entity))
    (officers : List (String × Officer)) (max_docs : Nat) :
    ((buildVectorStoreDocs g entities officers max_docs).length
      = min (entities.length + officers.length) max_docs
        + min (create_investigation_documents entities).length 100)
  ∧ (buildVectorStoreDocs g entities officers max_docs).length ≤ max_docs + 100
  ∧ entityDocsLoop g max_docs 0 entities
      = (entities.take max_docs).map (fun p => mkEntityDoc g p.1 p.2)
  ∧ officerDocsLoop g max_docs (entityDocsLoop g max_docs 0 entities).length officers
      = (officers.take (max_docs - entities.length)).map (fun p => mkOfficerDoc g p.1 p.2)
  ∧ (create_investigation_documents entities).length = (distinctSources entities).length := by
  have he := entityDocsLoop_eq_take g max_docs entities 0
  rw [Nat.sub_zero] at he
  have hel : (entityDocsLoop g max_docs 0 entities).length = min max_docs entities.length := by
    rw [he]; simp
  have ho' := officerDocsLoop_eq_take g max_docs officers (max_docs ⊓ entities.length)
  have harg : max_docs - max_docs ⊓ entities.length = max_docs - entities.length := by omega
  rw [harg] at ho'
  have ho : officerDocsLoop g max_docs (entityDocsLoop g max_docs 0 entities).length officers
      = (officers.take (max_docs - entities.length)).map (fun p => mkOfficerDoc g p.1 p.2) := by
    rw [hel]; exact ho'
  have hol' : (officerDocsLoop g max_docs (max_docs ⊓ entities.length) officers).length
      = (max_docs - entities.length) ⊓ officers.length := by
    rw [ho']; simp
  have hinv : (create_investigation_documents entities).length = (distinctSources entities).length := by
    simp [create_investigation_documents]
  have h1 : (buildVectorStoreDocs g entities officers max_docs).length
      = max_docs ⊓ entities.length + (max_docs - entities.length) ⊓ officers.length
        + 100 ⊓ (create_investigation_documents entities).length := by
    simp [buildVectorStoreDocs, hel, hol']
    try omega
  refine ⟨?_, ?_, he, ho, hinv⟩
  · rw [h1]; omega
  · rw [h1]; omega

/-- Claim C2, counterexample: one loaded entity and `max_docs = 1`
produce 2 documents (the entity document fills the cap, then one
investigation document is appended), so the total is NOT bounded by
`max_docs`. -/
theorem build_vector_store_cap_counterexample :
    (buildVectorStoreDocs (build_graph [("E1", entW)] [] [] []) [("E1", entW)] [] 1).length = 2
  ∧ ¬ ((buildVectorStoreDocs (build_graph [("E1", entW)] [] [] []) [("E1", entW)] [] 1).length ≤ 1) := by
  constructor
  · decide
  · decide

/-- Claim C2, witness: the amended bound applied to the sample dataset
with cap 3. -/
theorem build_vector_store_caps_witness :
    (buildVectorStoreDocs gW [("E1", entW)] [] 3).length ≤ 3 + 100 :=
  (build_vector_store_caps gW [("E1", entW)] [] 3).2.1

/-! ## Retrieval count and empty-store behaviour -/

/-- Claim C4: with a built store of `docs` and any similarity ranking
that permutes the indexed documents, `retrieve` returns exactly
`min k total` documents — in particular never more than `k`, and exactly
`total` when `total < k`. -/
theorem retrieve_count (st : RetrieverState) (rank : String → List Doc → List Doc)
    (query : String) (k : Nat) (docs : List Doc)
    (hst : st.document_store = some docs) (hperm : (rank query docs).Perm docs) (hk : 0 < k) :
    (retrieve st rank query k).1.length = min k docs.length
  ∧ (retrieve st rank query k).1.length ≤ k := by
  have hlen : (rank query docs).length = docs.length := hperm.length_eq
  have hr : (retrieve st rank query k).1
      = (enhance_with_graph_context st.graph ((rank query docs).take (k * 2))).take k := by
    simp [retrieve, hst]
  rw [hr]
  simp [enhance_with_graph_context, hlen]
  omega

/-- Claim C4, witness: retrieving 2 of the 3 sample documents. -/
theorem retrieve_count_witness :
    0 < 2 ∧ (retrieve stW rankW "offshore" 2).1.length
      = min 2 (buildVectorStoreDocs gW [("E1", entW)] [("O1", offW)] 5000).length :=
  ⟨by decide,
   (retrieve_count stW rankW "offshore" 2
      (buildVectorStoreDocs gW [("E1", entW)] [("O1", offW)] 5000) rfl
      (List.Perm.refl _) (by decide)).1⟩

/-- Claim C6: when document synthesis yields zero documents, building
the vector store is a no-op (the store stays absent), and `retrieve` —
which lazily retries the build — returns the empty list. -/
theorem retrieve_empty_store (st : RetrieverState) (rank : String → List Doc → List Doc)
    (query : String) (k : Nat)
    (h0 : st.document_store = none)
    (hall : ∀ m, buildVectorStoreDocs st.graph st.entities st.officers m = []) :
    (∀ m, build_vector_store st m = st) ∧ (retrieve st rank query k).1 = [] := by
  have hb : ∀ m, build_vector_store st m = st := by
    intro m; simp [build_vector_store, hall m]
  refine ⟨hb, ?_⟩
  simp [retrieve, h0, hb 5000]

/-- Claim C6, witness: retrieval over the empty dataset returns no
documents. -/
theorem retrieve_empty_store_witness :
    stEmptyW.document_store = none ∧ (retrieve stEmptyW rankW "anything" 4).1 = [] :=
  ⟨rfl, (retrieve_empty_store stEmptyW rankW "anything" 4 rfl (fun _ => rfl)).2⟩

/-! ## Enrichment lemmas -/

theorem dedupKeepFirst_length_le (seen : List String) (l : List String) :
    (dedupKeepFirst seen l).length ≤ l.length := by
  induction l generalizing seen with
  | nil => simp [dedupKeepFirst]
  | cons a l ih =>
    by_cases h : a ∈ seen
    · simp only [dedupKeepFirst, if_pos h]
      exact le_trans (ih seen) (Nat.le_succ _)
    · simp only [dedupKeepFirst, if_neg h, List.length_cons]
      exact Nat.succ_le_succ (ih (a :: seen))

/-- Claim C5 (amended): for an entity-typed document whose `entity_id`
is a node, enrichment sets `network_degree` to the node's multigraph
degree — the number of incident edges counting direction and
multiplicity, which is at least (but not always equal to) the number of
distinct neighbors — and sets `connected_to` to at most 5 named
officer/address neighbors. -/
theorem enhance_entity_fields (g : Graph) (d : Doc) (entity_id : String)
    (htype : mlookup d.metadata "type" = some (MVal.str "entity"))
    (hid : mlookup d.metadata "entity_id" = some (MVal.str entity_id))
    (hne : entity_id ≠ "") (hnode : g.hasNode entity_id = true) :
    mlookup (enhanceDoc g d).metadata "network_degree" = some (MVal.nat (g.degree entity_id))
  ∧ mlookup (enhanceDoc g d).metadata "connected_to"
      = some (MVal.str (String.intercalate "; " (connectedToNames g entity_id)))
  ∧ (connectedToNames g entity_id).length ≤ 5
  ∧ (g.neighbors entity_id).length ≤ g.degree entity_id := by
  have hd : (enhanceDoc g d).metadata
      = msetVal (msetVal d.metadata "network_degree" (MVal.nat (g.degree entity_id)))
          "connected_to" (MVal.str (String.intercalate "; " (connectedToNames g entity_id))) := by
    simp [enhanceDoc, htype, hid, hne, hnode]
  refine ⟨?_, ?_, ?_, ?_⟩
  · rw [hd]; simp [mlookup, msetVal, dictFind?_dictAssign]
  · rw [hd]; simp [mlookup, msetVal, dictFind?_dictAssign]
  · calc (connectedToNames g entity_id).length
        ≤ ((g.neighbors entity_id).take 5).length := List.length_filterMap_le _ _
      _ ≤ 5 := by simp
  · unfold Graph.neighbors Graph.degree
    calc (dedupKeepFirst []
          ((g.edges.filter (fun e => e.start_node = entity_id)).map (fun e => e.end_node))).length
        ≤ ((g.edges.filter (fun e => e.start_node = entity_id)).map (fun e => e.end_node)).length :=
          dedupKeepFirst_length_le _ _
      _ = (g.edges.filter (fun e => e.start_node = entity_id)).length := List.length_map _ _
      _ ≤ _ := Nat.le_add_right _ _

/-- Claim C5, counterexample: with two parallel edges from the sample
entity to the sample officer, `network_degree` is 2 (the NetworkX
multigraph degree counts incident edges with multiplicity) while the
entity has exactly 1 direct graph neighbor, so the field does NOT equal
the count of direct neighbors. -/
theorem network_degree_counterexample :
    mlookup (enhanceDoc gW docW).metadata "network_degree" = some (MVal.nat 2)
  ∧ (gW.neighbors "E1").length = 1
  ∧ mlookup (enhanceDoc gW docW).metadata "network_degree"
      ≠ some (MVal.nat ((gW.neighbors "E1").length)) := by
  refine ⟨by decide, by decide, by decide⟩

/-- Claim C5, witness: the amended enrichment equations hold on the
sample document. -/
theorem enhance_entity_fields_witness :
    gW.hasNode "E1" = true
  ∧ mlookup (enhanceDoc gW docW).metadata "connected_to"
      = some (MVal.str (String.intercalate "; " (connectedToNames gW "E1"))) :=
  ⟨by decide,
   (enhance_entity_fields gW docW "E1" (by decide) (by decide) (by decide) (by decide)).2.1⟩

/-! ## Entity document metadata fidelity -/

/-- Claim C8: every entity record that is synthesized (i.e. within the
`max_docs` cap) yields a document in the built list whose metadata
`type` is "entity" and whose `jurisdiction` and `source` equal the
record's fields exactly. -/
theorem entity_doc_metadata (g : Graph) (entities : List (String × Entity))
    (officers : List (String × Officer)) (max_docs : Nat) (id : String) (ent : Entity)
    (h : (id, ent) ∈ entities.take max_docs) :
    mkEntityDoc g id ent ∈ buildVectorStoreDocs g entities officers max_docs
  ∧ mlookup (mkEntityDoc g id ent).metadata "type" = some (MVal.str "entity")
  ∧ mlookup (mkEntityDoc g id ent).metadata "jurisdiction" = some (MVal.str ent.jurisdiction)
  ∧ mlookup (mkEntityDoc g id ent).metadata "source" = some (MVal.str ent.source) := by
  refine ⟨?_, rfl, rfl, rfl⟩
  have he := entityDocsLoop_eq_take g max_docs entities 0
  rw [Nat.sub_zero] at he
  have hmem : mkEntityDoc g id ent ∈ entityDocsLoop g max_docs 0 entities := by
    rw [he]
    exact List.mem_map.mpr ⟨(id, ent), h, rfl⟩
  simp only [buildVectorStoreDocs]
  exact List.mem_append_left _ (List.mem_append_left _ hmem)

/-- Claim C8, witness: the sample entity's document is in the built list
with faithful metadata. -/
theorem entity_doc_metadata_witness :
    ("E1", entW) ∈ ([("E1", entW)] : List (String × Entity)).take 5
  ∧ mkEntityDoc gW "E1" entW ∈ buildVectorStoreDocs gW [("E1", entW)] [("O1", offW)] 5 :=
  ⟨by decide, (entity_doc_metadata gW [("E1", entW)] [("O1", offW)] 5 "E1" entW (by decide)).1⟩

/-! ## Heap lemmas: enrichment never mutates indexed metadata cells -/

theorem enhance_doc_heap_cases (g : Graph) (heap : Heap) (d : HDoc) :
    (enhance_doc_heap g heap d).1 = heap ++ [heap.getD d.metaRef []]
  ∨ ∃ m2, (enhance_doc_heap g heap d).1
      = (heap ++ [heap.getD d.metaRef []]).set heap.length m2 := by
  simp only [enhance_doc_heap]
  split
  · split
    · split
      · exact Or.inr ⟨_, rfl⟩
      · exact Or.inl rfl
    · exact Or.inl rfl
  · exact Or.inl rfl

theorem enhance_doc_heap_snd (g : Graph) (heap : Heap) (d : HDoc) :
    (enhance_doc_heap g heap d).2 = ⟨d.page_content, heap.length⟩ := by
  simp only [enhance_doc_heap]

theorem enhance_doc_heap_get? (g : Graph) (heap : Heap) (d : HDoc) (i : Nat)
    (hi : i < heap.length) :
    (enhance_doc_heap g heap d).1[i]? = heap[i]? := by
  rcases enhance_doc_heap_cases g heap d with h | ⟨m2, h⟩ <;> rw [h]
  · exact List.getElem?_append_left hi
  · rw [List.getElem?_set_ne (by omega)]
    exact List.getElem?_append_left hi

theorem enhance_doc_heap_length (g : Graph) (heap : Heap) (d : HDoc) :
    heap.length ≤ (enhance_doc_heap g heap d).1.length := by
  rcases enhance_doc_heap_cases g heap d with h | ⟨m2, h⟩ <;> rw [h] <;> simp

theorem enhance_heap_list_spec (g : Graph) (docs : List HDoc) (heap : Heap) :
    (∀ i, i < heap.length → (enhance_with_graph_context_heap g heap docs).1[i]? = heap[i]?)
  ∧ heap.length ≤ (enhance_with_graph_context_heap g heap docs).1.length
  ∧ (∀ d ∈ (enhance_with_graph_context_heap g heap docs).2, heap.length ≤ d.metaRef)
  ∧ (enhance_with_graph_context_heap g heap docs).2.map HDoc.page_content
      = docs.map HDoc.page_content := by
  induction docs generalizing heap with
  | nil => exact ⟨fun i _ => rfl, Nat.le_refl _, by simp [enhance_with_graph_context_heap],
      by simp [enhance_with_graph_context_heap]⟩
  | cons d ds ih =>
    obtain ⟨ih1, ih2, ih3, ih4⟩ := ih (enhance_doc_heap g heap d).1
    have hstep := enhance_doc_heap_length g heap d
    refine ⟨?_, ?_, ?_, ?_⟩
    · intro i hi
      simp only [enhance_with_graph_context_heap]
      rw [ih1 i (Nat.lt_of_lt_of_le hi hstep)]
      exact enhance_doc_heap_get? g heap d i hi
    · simp only [enhance_with_graph_context_heap]
      exact Nat.le_trans hstep ih2
    · intro d' hd'
      simp only [enhance_with_graph_context_heap, List.mem_cons] at hd'
      rcases hd' with h | h
      · rw [h, enhance_doc_heap_snd]
      · exact Nat.le_trans hstep (ih3 d' h)
    · simp only [enhance_with_graph_context_heap, List.map_cons]
      rw [ih4, enhance_doc_heap_snd]

theorem enhanceIterHeap_get? (g : Graph) (docs : List HDoc) :
    ∀ (n : Nat) (heap : Heap) (i : Nat), i < heap.length →
      (enhanceIterHeap g n heap docs)[i]? = heap[i]? := by
  intro n
  induction n with
  | zero => intro heap i _; rfl
  | succ n ihn =>
    intro heap i hi
    obtain ⟨g1, g2, g3, g4⟩ := enhance_heap_list_spec g docs heap
    simp only [enhanceIterHeap]
    rw [ihn (enhance_with_graph_context_heap g heap docs).1 i (Nat.lt_of_lt_of_le hi g2)]
    exact g1 i hi

/-- Claim C7: enrichment never mutates any metadata cell that existed
before the call — every result is a fresh document (copied page content,
metadata written to a freshly allocated copy) — and the indexed cells
stay unchanged under any number of retrieval enrichments. -/
theorem enhance_no_mutation (g : Graph) (heap : Heap) (docs : List HDoc) :
    (∀ i, i < heap.length → (enhance_with_graph_context_heap g heap docs).1[i]? = heap[i]?)
  ∧ (∀ d ∈ (enhance_with_graph_context_heap g heap docs).2, heap.length ≤ d.metaRef)
  ∧ (enhance_with_graph_context_heap g heap docs).2.map HDoc.page_content
      = docs.map HDoc.page_content
  ∧ (∀ n i, i < heap.length → (enhanceIterHeap g n heap docs)[i]? = heap[i]?) := by
  obtain ⟨h1, h2, h3, h4⟩ := enhance_heap_list_spec g docs heap
  exact ⟨h1, h3, h4, fun n i hi => enhanceIterHeap_get? g docs n heap i hi⟩

/-- Claim C7, witness: one enrichment pass over the sample heap leaves
cell 0 (the indexed document's metadata) untouched. -/
theorem enhance_no_mutation_witness :
    (0 : Nat) < heapW.length
  ∧ (enhance_with_graph_context_heap gW heapW [hdocW]).1[0]? = some docW.metadata :=
  ⟨by decide, ((enhance_no_mutation gW heapW [hdocW]).1 0 (by decide)).trans rfl⟩

/-! ## Node typing of built graphs -/

theorem type_of_entity_attrs (e : Entity) :
    dictFind? (entityNodeAttrs e) "type" = some "entity" := by
  simp [entityNodeAttrs, dictFind?, List.find?]

theorem type_of_officer_attrs (o : Officer) :
    dictFind? (officerNodeAttrs o) "type" = some "officer" := by
  simp [officerNodeAttrs, dictFind?, List.find?]

theorem type_of_address_attrs (a : Address) :
    dictFind? (addressNodeAttrs a) "type" = some "address" := by
  simp [addressNodeAttrs, dictFind?, List.find?]

theorem type_of_entity_merge (e : Entity) (old : List (String × String)) :
    dictFind? ((entityNodeAttrs e).foldl (fun d q => dictAssign d q.1 q.2) old) "type"
      = some "entity" := by
  simp [entityNodeAttrs, dictFind?_dictAssign]

theorem type_of_officer_merge (o : Officer) (old : List (String × String)) :
    dictFind? ((officerNodeAttrs o).foldl (fun d q => dictAssign d q.1 q.2) old) "type"
      = some "officer" := by
  simp [officerNodeAttrs, dictFind?_dictAssign]

theorem type_of_address_merge (a : Address) (old : List (String × String)) :
    dictFind? ((addressNodeAttrs a).foldl (fun d q => dictAssign d q.1 q.2) old) "type"
      = some "address" := by
  simp [addressNodeAttrs, dictFind?_dictAssign]

theorem WellTypedNodes_addNode (g : Graph) (id : String) (attrs : List (String × String))
    (hg : WellTypedNodes g.nodes)
    (hattr : TypeOK (dictFind? attrs "type"))
    (hmerge : ∀ old, TypeOK (dictFind? (attrs.foldl (fun d q => dictAssign d q.1 q.2) old) "type")) :
    WellTypedNodes (g.addNode id attrs).nodes := by
  unfold Graph.addNode
  split
  · intro p hp
    obtain ⟨q, hq, hfq⟩ := List.mem_map.mp hp
    by_cases hqid : q.1 = id
    · rw [if_pos hqid] at hfq
      rw [← hfq]
      exact hmerge q.2
    · rw [if_neg hqid] at hfq
      rw [← hfq]
      exact hg q hq
  · intro p hp
    rcases List.mem_append.mp hp with h | h
    · exact hg p h
    · have : p = (id, attrs) := by simpa using h
      rw [this]
      exact hattr

theorem WellTypedNodes_foldl {γ : Type} (attrsOf : γ → List (String × String))
    (hattr : ∀ x, TypeOK (dictFind? (attrsOf x) "type"))
    (hmerge : ∀ x old,
      TypeOK (dictFind? ((attrsOf x).foldl (fun d q => dictAssign d q.1 q.2) old) "type"))
    (l : List (String × γ)) :
    ∀ (g : Graph), WellTypedNodes g.nodes →
      WellTypedNodes ((l.foldl (fun g p => g.addNode p.1 (attrsOf p.2)) g).nodes) := by
  induction l with
  | nil => intro g hg; exact hg
  | cons p ps ih =>
    intro g hg
    exact ih _ (WellTypedNodes_addNode g p.1 (attrsOf p.2) hg (hattr p.2) (hmerge p.2))

theorem buildNodes_wellTyped (entities : List (String × Entity))
    (officers : List (String × Officer)) (addresses : List (String × Address)) :
    WellTypedNodes (buildNodes entities officers addresses).nodes := by
  unfold buildNodes
  apply WellTypedNodes_foldl addressNodeAttrs
    (fun a => Or.inr (Or.inr (type_of_address_attrs a)))
    (fun a old => Or.inr (Or.inr (type_of_address_merge a old)))
  apply WellTypedNodes_foldl officerNodeAttrs
    (fun o => Or.inr (Or.inl (type_of_officer_attrs o)))
    (fun o old => Or.inr (Or.inl (type_of_officer_merge o old)))
  apply WellTypedNodes_foldl entityNodeAttrs
    (fun e => Or.inl (type_of_entity_attrs e))
    (fun e old => Or.inl (type_of_entity_merge e old))
  intro p hp
  simp at hp

theorem nodeType_of_hasNode (g : Graph) (hg : WellTypedNodes g.nodes) (id : String)
    (h : g.hasNode id = true) : TypeOK (g.nodeType id) := by
  obtain ⟨q, hq⟩ : ∃ q, g.nodes.find? (fun p => p.1 = id) = some q := by
    cases hfind : g.nodes.find? (fun p => p.1 = id) with
    | some q => exact ⟨q, rfl⟩
    | none =>
      unfold Graph.hasNode dictHasKey at h
      rw [List.any_eq_true] at h
      obtain ⟨p, hp, hpp⟩ := h
      rw [List.find?_eq_none] at hfind
      exact absurd hpp (by simpa using hfind p hp)
  have hqmem : q ∈ g.nodes := List.mem_of_find?_eq_some hq
  have hty := hg q hqmem
  have : g.nodeType id = dictFind? q.2 "type" := by
    simp [Graph.nodeType, Graph.nodeAttrs, dictFind?, hq]
  rw [this]
  exact hty

/-! ## Neighborhood lemmas for built graphs -/

theorem mem_of_mem_dedupKeepFirst (a : String) :
    ∀ (seen l : List String), a ∈ dedupKeepFirst seen l → a ∈ l := by
  intro seen l
  induction l generalizing seen with
  | nil => intro h; simp [dedupKeepFirst] at h
  | cons b l ih =>
    intro h
    by_cases hb : b ∈ seen
    · rw [dedupKeepFirst, if_pos hb] at h
      exact List.mem_cons_of_mem _ (ih seen h)
    · rw [dedupKeepFirst, if_neg hb] at h
      rcases List.mem_cons.mp h with h | h
      · exact h ▸ List.mem_cons_self _ _
      · exact List.mem_cons_of_mem _ (ih (b :: seen) h)

theorem build_graph_edge_endpoints (entities : List (String × Entity))
    (officers : List (String × Officer)) (addresses : List (String × Address))
    (relationships : List Relationship) (e : Edge)
    (he : e ∈ (build_graph entities officers addresses relationships).edges) :
    (build_graph entities officers addresses relationships).hasNode e.start_node = true
  ∧ (build_graph entities officers addresses relationships).hasNode e.end_node = true := by
  rw [build_graph_edges] at he
  obtain ⟨r, hr, heq⟩ := List.mem_map.mp he
  obtain ⟨-, hok⟩ := List.mem_filter.mp hr
  have h1 : e.start_node = r.start_node := (congrArg Edge.start_node heq).symm
  have h2 : e.end_node = r.end_node := (congrArg Edge.end_node heq).symm
  rw [build_graph_hasNode, build_graph_hasNode, h1, h2]
  simpa [Bool.and_eq_true] using hok

theorem neighbors_hasNode (entities : List (String × Entity))
    (officers : List (String × Officer)) (addresses : List (String × Address))
    (relationships : List Relationship) (id v : String)
    (hv : v ∈ (build_graph entities officers addresses relationships).neighbors id) :
    (build_graph entities officers addresses relationships).hasNode v = true := by
  unfold Graph.neighbors at hv
  have hv' := mem_of_mem_dedupKeepFirst v [] _ hv
  obtain ⟨e, he, heq⟩ := List.mem_map.mp hv'
  have hef : e ∈ (build_graph entities officers addresses relationships).edges :=
    (List.mem_filter.mp he).1
  have := (build_graph_edge_endpoints entities officers addresses relationships e hef).2
  rw [heq] at this
  exact this

theorem neighbors_nil_of_not_hasNode (entities : List (String × Entity))
    (officers : List (String × Officer)) (addresses : List (String × Address))
    (relationships : List Relationship) (id : String)
    (h : ¬ (build_graph entities officers addresses relationships).hasNode id = true) :
    (build_graph entities officers addresses relationships).neighbors id = [] := by
  unfold Graph.neighbors
  have hfil : (build_graph entities officers addresses relationships).edges.filter
      (fun e => e.start_node = id) = [] := by
    rw [List.filter_eq_nil_iff]
    intro e he hpred
    have hs : e.start_node = id := by simpa using hpred
    have := (build_graph_edge_endpoints entities officers addresses relationships e he).1
    rw [hs] at this
    exact h this
  rw [hfil]
  rfl

/-! ## Connections-loop partition and coverage -/

theorem entityConnsLoop_spec (g : Graph) (entity_id : String) (vs : List String)
    (hty : ∀ v ∈ vs, TypeOK (g.nodeType v)) :
    ((entityConnsLoop g entity_id vs).officers.length
      + (entityConnsLoop g entity_id vs).addresses.length
      + (entityConnsLoop g entity_id vs).other_entities.length = vs.length)
  ∧ ∀ v ∈ vs,
      (g.nodeType v = some "officer"
        ∧ officerConnOf g v (relInfo g entity_id v) ∈ (entityConnsLoop g entity_id vs).officers)
    ∨ (g.nodeType v = some "address"
        ∧ addressConnOf g v (relInfo g entity_id v) ∈ (entityConnsLoop g entity_id vs).addresses)
    ∨ (g.nodeType v = some "entity"
        ∧ entityConnOf g v (relInfo g entity_id v)
            ∈ (entityConnsLoop g entity_id vs).other_entities) := by
  induction vs with
  | nil => simp [entityConnsLoop]
  | cons v vs ih =>
    obtain ⟨ihl, ihm⟩ := ih (fun w hw => hty w (List.mem_cons_of_mem _ hw))
    rcases hty v (List.mem_cons_self _ _) with h | h | h
    · have hno : ¬ g.nodeType v = some "officer" := by rw [h]; simp
      have hna : ¬ g.nodeType v = some "address" := by rw [h]; simp
      constructor
      · simp only [entityConnsLoop, if_neg hno, if_neg hna, if_pos h, List.length_cons]
        omega
      · intro w hw
        rcases List.mem_cons.mp hw with hwv | hwvs
        · subst hwv
          refine Or.inr (Or.inr ⟨h, ?_⟩)
          simp [entityConnsLoop, hno, hna, h]
        · rcases ihm w hwvs with ⟨ht, hm⟩ | ⟨ht, hm⟩ | ⟨ht, hm⟩
          · exact Or.inl ⟨ht, by simp [entityConnsLoop, hno, hna, h, hm]⟩
          · exact Or.inr (Or.inl ⟨ht, by simp [entityConnsLoop, hno, hna, h, hm]⟩)
          · exact Or.inr (Or.inr ⟨ht, by
              simp [entityConnsLoop, hno, hna, h, List.mem_cons, hm]⟩)
    · constructor
      · simp only [entityConnsLoop, if_pos h, List.length_cons]
        omega
      · intro w hw
        rcases List.mem_cons.mp hw with hwv | hwvs
        · subst hwv
          refine Or.inl ⟨h, ?_⟩
          simp [entityConnsLoop, h]
        · rcases ihm w hwvs with ⟨ht, hm⟩ | ⟨ht, hm⟩ | ⟨ht, hm⟩
          · exact Or.inl ⟨ht, by simp [entityConnsLoop, h, List.mem_cons, hm]⟩
          · exact Or.inr (Or.inl ⟨ht, by simp [entityConnsLoop, h, hm]⟩)
          · exact Or.inr (Or.inr ⟨ht, by simp [entityConnsLoop, h, hm]⟩)
    · have hno : ¬ g.nodeType v = some "officer" := by rw [h]; simp
      constructor
      · simp only [entityConnsLoop, if_neg hno, if_pos h, List.length_cons]
        omega
      · intro w hw
        rcases List.mem_cons.mp hw with hwv | hwvs
        · subst hwv
          refine Or.inr (Or.inl ⟨h, ?_⟩)
          simp [entityConnsLoop, hno, h]
        · rcases ihm w hwvs with ⟨ht, hm⟩ | ⟨ht, hm⟩ | ⟨ht, hm⟩
          · exact Or.inl ⟨ht, by simp [entityConnsLoop, hno, h, hm]⟩
          · exact Or.inr (Or.inl ⟨ht, by simp [entityConnsLoop, hno, h, List.mem_cons, hm]⟩)
          · exact Or.inr (Or.inr ⟨ht, by simp [entityConnsLoop, hno, h, hm]⟩)

theorem officerInfoList_spec (c : EntityConnections) :
    (officerInfoList c).length = min c.officers.length 5
  ∧ ∀ oc ∈ c.officers.take 5,
      oc.name ++ " (" ++ orElse oc.relationship "connected_to" ++ ")" ∈ officerInfoList c := by
  constructor
  · simp [officerInfoList, Nat.min_comm]
  · intro oc hoc
    exact List.mem_map_of_mem _ hoc

theorem addrInfoList_spec (c : EntityConnections) :
    (addrInfoList c).length = min c.addresses.length 3
  ∧ ∀ ac ∈ c.addresses.take 3,
      ac.address ++ " (" ++ orElse ac.relationship "registered_address" ++ ")" ∈ addrInfoList c := by
  constructor
  · simp [addrInfoList, Nat.min_comm]
  · intro ac hac
    exact List.mem_map_of_mem _ hac

/-- Claim C3: over a built graph, the neighborhood scan of an entity
covers all of its direct graph neighbors, partitioned by neighbor type
into officers, addresses and other entities (each item annotated with
`relInfo`, the first connecting edge's relationship label); the entity
document then lists up to 5 officers and up to 3 addresses, each labelled
with its relationship or the generic fallback
(`connected_to`/`registered_address`) when the label is empty. -/
theorem entity_connections_spec (entities : List (String × Entity))
    (officers : List (String × Officer)) (addresses : List (String × Address))
    (relationships : List Relationship) (entity_id : String)
    (g : Graph) (c : EntityConnections)
    (hg : g = build_graph entities officers addresses relationships)
    (hc : c = get_entity_connections g entity_id) :
    (c.officers.length + c.addresses.length + c.other_entities.length
        = (g.neighbors entity_id).length)
  ∧ (∀ v ∈ g.neighbors entity_id,
      (g.nodeType v = some "officer"
        ∧ officerConnOf g v (relInfo g entity_id v) ∈ c.officers)
    ∨ (g.nodeType v = some "address"
        ∧ addressConnOf g v (relInfo g entity_id v) ∈ c.addresses)
    ∨ (g.nodeType v = some "entity"
        ∧ entityConnOf g v (relInfo g entity_id v) ∈ c.other_entities))
  ∧ ((officerInfoList c).length = min c.officers.length 5)
  ∧ (∀ oc ∈ c.officers.take 5,
      oc.name ++ " (" ++ orElse oc.relationship "connected_to" ++ ")" ∈ officerInfoList c)
  ∧ ((addrInfoList c).length = min c.addresses.length 3)
  ∧ (∀ ac ∈ c.addresses.take 3,
      ac.address ++ " (" ++ orElse ac.relationship "registered_address" ++ ")" ∈ addrInfoList c) := by
  subst hg
  subst hc
  by_cases hn : (build_graph entities officers addresses relationships).hasNode entity_id = true
  · have hc2 : get_entity_connections (build_graph entities officers addresses relationships)
        entity_id
        = entityConnsLoop (build_graph entities officers addresses relationships) entity_id
            ((build_graph entities officers addresses relationships).neighbors entity_id) := by
      unfold get_entity_connections
      rw [if_pos hn]
    rw [hc2]
    have hwt : WellTypedNodes (build_graph entities officers addresses relationships).nodes := by
      rw [build_graph_nodes]
      exact buildNodes_wellTyped entities officers addresses
    have hty : ∀ v ∈ (build_graph entities officers addresses relationships).neighbors entity_id,
        TypeOK ((build_graph entities officers addresses relationships).nodeType v) :=
      fun v hv => nodeType_of_hasNode _ hwt v
        (neighbors_hasNode entities officers addresses relationships entity_id v hv)
    obtain ⟨hlen, hcov⟩ := entityConnsLoop_spec _ entity_id _ hty
    exact ⟨hlen, hcov, (officerInfoList_spec _).1, (officerInfoList_spec _).2,
      (addrInfoList_spec _).1, (addrInfoList_spec _).2⟩
  · have hnil := neighbors_nil_of_not_hasNode entities officers addresses relationships entity_id hn
    have hc2 : get_entity_connections (build_graph entities officers addresses relationships)
        entity_id = ⟨[], [], []⟩ := by
      unfold get_entity_connections
      rw [if_neg hn]
    rw [hc2, hnil]
    exact ⟨by simp, by simp, (officerInfoList_spec _).1, (officerInfoList_spec _).2,
      (addrInfoList_spec _).1, (addrInfoList_spec _).2⟩

/-- Claim C3, witness: in the sample graph the officer neighbor of the
sample entity is covered by the scan, annotated with the first edge's
relationship label. -/
theorem entity_connections_spec_witness :
    "O1" ∈ gW.neighbors "E1"
  ∧ officerConnOf gW "O1" (relInfo gW "E1" "O1") ∈ (get_entity_connections gW "E1").officers := by
  have h := entity_connections_spec [("E1", entW)] [("O1", offW)] [] [relW1, relW2] "E1" gW
    (get_entity_connections gW "E1") rfl rfl
  refine ⟨by decide, ?_⟩
  rcases h.2.1 "O1" (by decide) with ⟨_, hm⟩ | ⟨ht, _⟩ | ⟨ht, _⟩
  · exact hm
  · exact absurd ht (by decide)
  · exact absurd ht (by decide)

end ICIJ
